import Mathlib

/-!
Shallow embedding of `src/mount_options.rs` from the `fuse3` crate: the
`MountOptions` aggregator, its fluent setters, and the three render
operations (Linux descriptor-based `build`, FreeBSD named-option `build`,
and `build_with_unprivileged`), together with theorems checking the
natural-language specification against them.

Conventions of the embedding:
* `u32` values (`uid`, `gid`, `rootmode`) are modelled as `Nat`; the Rust
  code only stores and prints them in decimal, which agrees with `Nat`
  printing for all `u32` values.
* `RawFd` (an `i32`) is modelled as `Int`; Rust's `Display` for `i32`
  agrees with `Int` printing.
* `OsString`/`String` are modelled as Lean `String`.
* The reads of `unistd::getuid()`/`unistd::getgid()` are modelled by an
  explicit `FuseEnv` argument carrying the process's effective uid/gid.
* Methods taking `&mut self`/`&self` become functions on the record; the
  `&self` render methods are additionally given state-passing variants
  (`…St`) returning the result together with the (unwritten) receiver
  state, used for the frame theorems.
-/

/-- The part of the process environment the renders read: the effective
uid and gid returned by `unistd::getuid()` / `unistd::getgid()`. -/
structure FuseEnv where
  getuid : Nat
  getgid : Nat
deriving DecidableEq

/-- Embedding of `struct MountOptions` (all fields, in source order);
`Default::default()` is `MountOptions.new` below. -/
structure MountOptions where
  uid : Option Nat
  gid : Option Nat
  fs_name : Option String
  rootmode : Option Nat
  allow_root : Bool
  allow_other : Bool
  read_only : Option Bool
  nonempty : Bool
  default_permissions : Bool
  dont_mask : Bool
  no_open_support : Bool
  no_open_dir_support : Bool
  handle_killpriv : Bool
  write_back : Bool
  force_readdir_plus : Bool
  custom_options : Option String
deriving DecidableEq

/-- `MountOptions::default()` (derived `Default`): every `Option` field
`None`, every `bool` field `false`. -/
def MountOptions.new : MountOptions :=
  { uid := none, gid := none, fs_name := none, rootmode := none,
    allow_root := false, allow_other := false, read_only := none,
    nonempty := false, default_permissions := false, dont_mask := false,
    no_open_support := false, no_open_dir_support := false,
    handle_killpriv := false, write_back := false,
    force_readdir_plus := false, custom_options := none }

/-- Setter `MountOptions::uid` (`self.uid.replace(uid)`). -/
def MountOptions.set_uid (o : MountOptions) (uid : Nat) : MountOptions :=
  { o with uid := some uid }

/-- Setter `MountOptions::gid` (`self.gid.replace(gid)`). -/
def MountOptions.set_gid (o : MountOptions) (gid : Nat) : MountOptions :=
  { o with gid := some gid }

/-- Setter `MountOptions::fs_name` (`self.fs_name.replace(name.into())`). -/
def MountOptions.set_fs_name (o : MountOptions) (name : String) : MountOptions :=
  { o with fs_name := some name }

/-- Setter `MountOptions::rootmode` (`self.rootmode.replace(rootmode)`). -/
def MountOptions.set_rootmode (o : MountOptions) (rootmode : Nat) : MountOptions :=
  { o with rootmode := some rootmode }

/-- Setter `MountOptions::allow_root`. -/
def MountOptions.set_allow_root (o : MountOptions) (allow_root : Bool) : MountOptions :=
  { o with allow_root := allow_root }

/-- Setter `MountOptions::allow_other`. -/
def MountOptions.set_allow_other (o : MountOptions) (allow_other : Bool) : MountOptions :=
  { o with allow_other := allow_other }

/-- Setter `MountOptions::read_only` (`self.read_only.replace(read_only)`). -/
def MountOptions.set_read_only (o : MountOptions) (read_only : Bool) : MountOptions :=
  { o with read_only := some read_only }

/-- Setter `MountOptions::nonempty`. -/
def MountOptions.set_nonempty (o : MountOptions) (nonempty : Bool) : MountOptions :=
  { o with nonempty := nonempty }

/-- Setter `MountOptions::default_permissions`. -/
def MountOptions.set_default_permissions (o : MountOptions) (default_permissions : Bool) :
    MountOptions :=
  { o with default_permissions := default_permissions }

/-- Setter `MountOptions::dont_mask`. -/
def MountOptions.set_dont_mask (o : MountOptions) (dont_mask : Bool) : MountOptions :=
  { o with dont_mask := dont_mask }

/-- Setter `MountOptions::no_open_support`. -/
def MountOptions.set_no_open_support (o : MountOptions) (no_open_support : Bool) :
    MountOptions :=
  { o with no_open_support := no_open_support }

/-- Setter `MountOptions::no_open_dir_support`. -/
def MountOptions.set_no_open_dir_support (o : MountOptions) (no_open_dir_support : Bool) :
    MountOptions :=
  { o with no_open_dir_support := no_open_dir_support }

/-- Setter `MountOptions::handle_killpriv`. -/
def MountOptions.set_handle_killpriv (o : MountOptions) (handle_killpriv : Bool) :
    MountOptions :=
  { o with handle_killpriv := handle_killpriv }

/-- Setter `MountOptions::write_back`. -/
def MountOptions.set_write_back (o : MountOptions) (write_back : Bool) : MountOptions :=
  { o with write_back := write_back }

/-- Setter `MountOptions::force_readdir_plus`. -/
def MountOptions.set_force_readdir_plus (o : MountOptions) (force_readdir_plus : Bool) :
    MountOptions :=
  { o with force_readdir_plus := force_readdir_plus }

/-- Setter `MountOptions::custom_options` (`Some(custom_options.into())`). -/
def MountOptions.set_custom_options (o : MountOptions) (custom_options : String) :
    MountOptions :=
  { o with custom_options := some custom_options }

/-- The `opts` vector built by `MountOptions::build` (Linux, lines 197–224):
the four mandatory `format!` entries followed by the conditional pushes, in
source order. -/
def MountOptions.linuxOpts (o : MountOptions) (env : FuseEnv) (fd : Int) : List String :=
  let opts : List String :=
    ["fd=" ++ toString fd,
     "user_id=" ++ toString (o.uid.getD env.getuid),
     "group_id=" ++ toString (o.gid.getD env.getgid),
     "rootmode=" ++ toString (o.rootmode.getD 40000)]
  let opts := if o.allow_root then opts ++ ["allow_root"] else opts
  let opts := if o.allow_other then opts ++ ["allow_other"] else opts
  let opts := if o.read_only = some true then opts ++ ["ro"] else opts
  let opts := if o.default_permissions then opts ++ ["default_permissions"] else opts
  opts

/-- `MountOptions::build` for Linux (lines 196–234): join the option vector
with commas (`opts.join(",")`), then, if `custom_options` is set, push a
comma and the custom text. -/
def MountOptions.build (o : MountOptions) (env : FuseEnv) (fd : Int) : String :=
  let options := String.intercalate "," (o.linuxOpts env fd)
  match o.custom_options with
  | some custom_options => options ++ "," ++ custom_options
  | none => options

/-- The `opts` vector built by `MountOptions::build_with_unprivileged`
(lines 238–268): like the Linux one but with no `fd=` entry and an
additional mandatory `fsname=<fs_name or "fuse">` entry. -/
def MountOptions.unprivOpts (o : MountOptions) (env : FuseEnv) : List String :=
  let opts : List String :=
    ["user_id=" ++ toString (o.uid.getD env.getuid),
     "group_id=" ++ toString (o.gid.getD env.getgid),
     "rootmode=" ++ toString (o.rootmode.getD 40000),
     "fsname=" ++ (o.fs_name.getD "fuse")]
  let opts := if o.allow_root then opts ++ ["allow_root"] else opts
  let opts := if o.allow_other then opts ++ ["allow_other"] else opts
  let opts := if o.read_only = some true then opts ++ ["ro"] else opts
  let opts := if o.default_permissions then opts ++ ["default_permissions"] else opts
  opts

/-- `MountOptions::build_with_unprivileged` (lines 236–278). -/
def MountOptions.build_with_unprivileged (o : MountOptions) (env : FuseEnv) : String :=
  let options := String.intercalate "," (o.unprivOpts env)
  match o.custom_options with
  | some custom_options => options ++ "," ++ custom_options
  | none => options

/-- An `Nmount` option entry: the name passed to `str_opt`/`null_opt`/
`str_opt_owned` together with the optional value (`none` for `null_opt`). -/
abbrev NmountEntry := String × Option String

/-- `MountOptions::build` for FreeBSD (lines 173–193): the two mandatory
`str_opt` entries, then the conditional `null_opt` flags, then the
`str_opt_owned(cstr!("subtype="), fs_name)` entry.  Note the source's
literal option name is `"subtype="`, so name and value concatenate to
`subtype=<fs_name>`. -/
def MountOptions.build_freebsd (o : MountOptions) : List NmountEntry :=
  let nmount : List NmountEntry := [("fstype", some "fusefs"), ("from", some "/dev/fuse")]
  let nmount := if o.allow_other then nmount ++ [("allow_other", none)] else nmount
  let nmount :=
    if o.default_permissions then nmount ++ [("default_permissions", none)] else nmount
  match o.fs_name with
  | some fs_name => nmount ++ [("subtype=", some fs_name)]
  | none => nmount

/-- State-passing form of the Linux `build` (`&self` receiver): the body
never writes a field of `self`, so the returned state is the input state. -/
def MountOptions.buildSt (o : MountOptions) (env : FuseEnv) (fd : Int) :
    String × MountOptions :=
  (o.build env fd, o)

/-- State-passing form of `build_with_unprivileged` (`&self` receiver). -/
def MountOptions.build_with_unprivilegedSt (o : MountOptions) (env : FuseEnv) :
    String × MountOptions :=
  (o.build_with_unprivileged env, o)

/-- State-passing form of the FreeBSD `build` (`&self` receiver). -/
def MountOptions.build_freebsdSt (o : MountOptions) : List NmountEntry × MountOptions :=
  (o.build_freebsd, o)

/-- Split a rendered option string at every comma; the comma-separated
segments ("tokens") of the string. -/
def commaSplit (s : String) : List String :=
  (s.data.splitOn ',').map fun cs => String.mk cs

/-! ### Claim-side definitions

The following definitions follow the spec's words (the fixed field-order
enumerations of §4.2, §4.3 and §4.4), to be compared with the
source-embedded renders above by refinement theorems. -/

/-- The segment list of the descriptor-based render as the spec enumerates
it: four mandatory `key=value` segments followed by each conditional flag
in the stated order. -/
def specDescriptorOpts (o : MountOptions) (env : FuseEnv) (fd : Int) : List String :=
  ["fd=" ++ toString fd,
   "user_id=" ++ toString (o.uid.getD env.getuid),
   "group_id=" ++ toString (o.gid.getD env.getgid),
   "rootmode=" ++ toString (o.rootmode.getD 40000)]
  ++ (if o.allow_root then ["allow_root"] else [])
  ++ (if o.allow_other then ["allow_other"] else [])
  ++ (if o.read_only = some true then ["ro"] else [])
  ++ (if o.default_permissions then ["default_permissions"] else [])

/-- The descriptor-based render as the spec words it: the comma-delimited
segments in the fixed order, then the custom text preceded by a comma only
if `custom_options` is set. -/
def specDescriptorRender (o : MountOptions) (env : FuseEnv) (fd : Int) : String :=
  String.intercalate "," (specDescriptorOpts o env fd)
  ++ (match o.custom_options with
      | some custom => "," ++ custom
      | none => "")

/-- The segment list of the unprivileged-helper render as the spec words
it: no `fd=` segment, an `fsname=<fs_name or "fuse">` segment, otherwise
the same field order and flag-inclusion rules as the descriptor render. -/
def specUnprivOpts (o : MountOptions) (env : FuseEnv) : List String :=
  ["user_id=" ++ toString (o.uid.getD env.getuid),
   "group_id=" ++ toString (o.gid.getD env.getgid),
   "rootmode=" ++ toString (o.rootmode.getD 40000),
   "fsname=" ++ (o.fs_name.getD "fuse")]
  ++ (if o.allow_root then ["allow_root"] else [])
  ++ (if o.allow_other then ["allow_other"] else [])
  ++ (if o.read_only = some true then ["ro"] else [])
  ++ (if o.default_permissions then ["default_permissions"] else [])

/-- The unprivileged-helper render as the spec words it. -/
def specUnprivRender (o : MountOptions) (env : FuseEnv) : String :=
  String.intercalate "," (specUnprivOpts o env)
  ++ (match o.custom_options with
      | some custom => "," ++ custom
      | none => "")

/-- The named-option (BSD-style) render as the spec enumerates it: the two
mandatory entries, then bare `allow_other` / `default_permissions` flag
entries when set, then the `subtype=<fs_name>` entry when `fs_name` is
present. -/
def specNamedEntries (o : MountOptions) : List NmountEntry :=
  [("fstype", some "fusefs"), ("from", some "/dev/fuse")]
  ++ (if o.allow_other then [("allow_other", none)] else [])
  ++ (if o.default_permissions then [("default_permissions", none)] else [])
  ++ (match o.fs_name with
      | some fs_name => [("subtype=", some fs_name)]
      | none => [])

/-! ### Refinement lemmas: source renders equal spec-worded renders -/

lemma linuxOpts_eq_spec (o : MountOptions) (env : FuseEnv) (fd : Int) :
    o.linuxOpts env fd = specDescriptorOpts o env fd := by
  unfold MountOptions.linuxOpts specDescriptorOpts
  by_cases h1 : o.allow_root <;> by_cases h2 : o.allow_other <;>
    by_cases h3 : o.read_only = some true <;> by_cases h4 : o.default_permissions <;>
    simp [h1, h2, h3, h4]

lemma build_eq_spec (o : MountOptions) (env : FuseEnv) (fd : Int) :
    o.build env fd = specDescriptorRender o env fd := by
  unfold MountOptions.build specDescriptorRender
  rw [linuxOpts_eq_spec]
  cases o.custom_options <;> simp [String.append_assoc]

lemma unprivOpts_eq_spec (o : MountOptions) (env : FuseEnv) :
    o.unprivOpts env = specUnprivOpts o env := by
  unfold MountOptions.unprivOpts specUnprivOpts
  by_cases h1 : o.allow_root <;> by_cases h2 : o.allow_other <;>
    by_cases h3 : o.read_only = some true <;> by_cases h4 : o.default_permissions <;>
    simp [h1, h2, h3, h4]

lemma unpriv_eq_spec (o : MountOptions) (env : FuseEnv) :
    o.build_with_unprivileged env = specUnprivRender o env := by
  unfold MountOptions.build_with_unprivileged specUnprivRender
  rw [unprivOpts_eq_spec]
  cases o.custom_options <;> simp [String.append_assoc]

lemma freebsd_eq_spec (o : MountOptions) :
    o.build_freebsd = specNamedEntries o := by
  unfold MountOptions.build_freebsd specNamedEntries
  by_cases h1 : o.allow_other <;> by_cases h2 : o.default_permissions <;>
    cases h3 : o.fs_name <;> simp [h1, h2, h3]

/-! ### String infrastructure: decimal reprs contain no comma, and
`commaSplit` inverts comma-joining of comma-free segments -/

lemma digitChar_lt10_ne_comma (d : Nat) (hd : d < 10) : Nat.digitChar d ≠ ',' := by
  interval_cases d <;> decide

lemma toDigitsCore_ne_comma (fuel : Nat) (n : Nat) (ds : List Char)
    (h : ',' ∉ ds) : ',' ∉ Nat.toDigitsCore 10 fuel n ds := by
  induction fuel generalizing n ds with
  | zero => simpa [Nat.toDigitsCore] using h
  | succ f ih =>
    unfold Nat.toDigitsCore
    dsimp only
    have hcons : ',' ∉ Nat.digitChar (n % 10) :: ds := by
      intro hm
      rcases List.mem_cons.mp hm with h1 | h1
      · exact digitChar_lt10_ne_comma (n % 10) (Nat.mod_lt _ (by omega)) h1.symm
      · exact h h1
    split
    · exact hcons
    · exact ih _ _ hcons

lemma natToString_ne_comma (n : Nat) : ',' ∉ (toString n).data := by
  show ',' ∉ (Nat.repr n).data
  unfold Nat.repr Nat.toDigits
  simpa [List.asString] using toDigitsCore_ne_comma (n + 1) n [] (by simp)

lemma intToString_ne_comma (i : Int) : ',' ∉ (toString i).data := by
  cases i with
  | ofNat m => simpa using natToString_ne_comma m
  | negSucc m =>
    show ',' ∉ ("-" ++ toString (m + 1)).data
    simp only [String.data_append, List.mem_append]
    rintro (h | h)
    · simp at h
    · exact natToString_ne_comma (m + 1) h

lemma string_mk_data (s : String) : String.mk s.data = s := rfl

lemma mk_comp_data_eq_id : ((fun cs => String.mk cs) ∘ String.data) = id :=
  funext fun _ => rfl

lemma intercalate_go_data (s : String) (as : List String) (acc : String) :
    (String.intercalate.go acc s as).data
      = acc.data ++ (as.map fun a => s.data ++ a.data).flatten := by
  induction as generalizing acc with
  | nil => simp [String.intercalate.go]
  | cons a as ih => simp [String.intercalate.go, ih, List.append_assoc]

lemma list_intercalate_cons {α : Type} (sep : List α) (x : List α) (xs : List (List α)) :
    List.intercalate sep (x :: xs) = x ++ (xs.map fun y => sep ++ y).flatten := by
  induction xs generalizing x with
  | nil => simp [List.intercalate]
  | cons b bs ih =>
    rw [show List.intercalate sep (x :: b :: bs)
        = (List.intersperse sep (x :: b :: bs)).flatten from rfl]
    rw [List.intersperse_cons_cons]
    simp only [List.flatten_cons]
    rw [show (List.intersperse sep (b :: bs)).flatten = List.intercalate sep (b :: bs) from rfl]
    rw [ih b]
    simp [List.append_assoc]

lemma intercalate_data (l : List String) :
    (String.intercalate "," l).data = List.intercalate [','] (l.map String.data) := by
  cases l with
  | nil => rfl
  | cons a as =>
    rw [show String.intercalate "," (a :: as) = String.intercalate.go a "," as from rfl]
    rw [intercalate_go_data, List.map_cons, list_intercalate_cons]
    rw [List.map_map]
    rfl

lemma commaSplit_intercalate (l : List String) (hl : l ≠ [])
    (hc : ∀ p ∈ l, ',' ∉ p.data) :
    commaSplit (String.intercalate "," l) = l := by
  unfold commaSplit
  rw [intercalate_data]
  rw [List.splitOn_intercalate (l.map String.data) ','
    (by simpa using hc) (by simpa using hl)]
  rw [List.map_map, mk_comp_data_eq_id, List.map_id]

lemma beq_comma_of_not_mem {a : List Char} (ha : ',' ∉ a) :
    ∀ y ∈ a, ¬(y == ',') = true := by
  intro y hy h
  rw [beq_iff_eq] at h
  exact ha (h ▸ hy)

lemma splitOn_flat_append (a : List Char) (as : List (List Char)) (cs : List Char)
    (ha : ',' ∉ a) (has : ∀ l ∈ as, ',' ∉ l) :
    (a ++ ((as.map fun y => ',' :: y).flatten ++ ',' :: cs)).splitOn ','
      = a :: (as ++ cs.splitOn ',') := by
  induction as generalizing a with
  | nil =>
    simp only [List.map_nil, List.flatten_nil, List.nil_append]
    show List.splitOnP (· == ',') (a ++ ',' :: cs) = _
    rw [List.splitOnP_first (· == ',') a (beq_comma_of_not_mem ha) ',' (by simp) cs]
    rfl
  | cons b bs ih =>
    simp only [List.map_cons, List.flatten_cons]
    rw [show ((',' :: b) ++ (bs.map fun y => ',' :: y).flatten) ++ ',' :: cs
        = ',' :: (b ++ ((bs.map fun y => ',' :: y).flatten ++ ',' :: cs)) by simp]
    show List.splitOnP (· == ',') (a ++ ',' :: _) = _
    rw [List.splitOnP_first (· == ',') a (beq_comma_of_not_mem ha) ',' (by simp) _]
    have hb : ',' ∉ b := has b (by simp)
    have hbs : ∀ l ∈ bs, ',' ∉ l := fun l hl => has l (by simp [hl])
    have hih := ih b hb hbs
    rw [show List.splitOnP (· == ',') (b ++ ((bs.map fun y => ',' :: y).flatten ++ ',' :: cs))
        = (b ++ ((bs.map fun y => ',' :: y).flatten ++ ',' :: cs)).splitOn ',' from rfl]
    rw [hih]
    rfl

lemma commaSplit_intercalate_append (l : List String) (c : String) (hl : l ≠ [])
    (hc : ∀ p ∈ l, ',' ∉ p.data) :
    commaSplit (String.intercalate "," l ++ "," ++ c) = l ++ commaSplit c := by
  unfold commaSplit
  cases l with
  | nil => exact absurd rfl hl
  | cons a as =>
    have hd : (String.intercalate "," (a :: as) ++ "," ++ c).data
        = a.data ++ (((as.map String.data).map fun y => ',' :: y).flatten ++ ',' :: c.data) := by
      simp only [String.data_append, intercalate_data]
      rw [List.map_cons, list_intercalate_cons]
      simp [List.append_assoc]
    rw [hd]
    rw [splitOn_flat_append a.data (as.map String.data) c.data
      (hc a (by simp))
      (by
        intro l hl'
        simp only [List.mem_map] at hl'
        obtain ⟨s, hs, rfl⟩ := hl'
        exact hc s (by simp [hs]))]
    rw [List.map_cons, List.map_append, List.map_map, mk_comp_data_eq_id, List.map_id]
    rfl

/-! ### Inequalities between option segments -/

lemma ro_ne_fd (s : String) : "ro" ≠ "fd=" ++ s := by
  intro h
  have hd := congrArg String.data h
  simp only [String.data_append] at hd
  simp only [List.cons_append, List.nil_append] at hd
  injection hd with h1 _
  exact absurd h1 (by decide)

lemma ro_ne_user (s : String) : "ro" ≠ "user_id=" ++ s := by
  intro h
  have hd := congrArg String.data h
  simp only [String.data_append] at hd
  simp only [List.cons_append, List.nil_append] at hd
  injection hd with h1 _
  exact absurd h1 (by decide)

lemma ro_ne_group (s : String) : "ro" ≠ "group_id=" ++ s := by
  intro h
  have hd := congrArg String.data h
  simp only [String.data_append] at hd
  simp only [List.cons_append, List.nil_append] at hd
  injection hd with h1 _
  exact absurd h1 (by decide)

lemma ro_ne_rootmode (s : String) : "ro" ≠ "rootmode=" ++ s := by
  intro h
  have hd := congrArg String.data h
  simp only [String.data_append] at hd
  simp only [List.cons_append, List.nil_append] at hd
  injection hd with _ h2
  injection h2 with _ h3
  injection h3

lemma ro_ne_fsname (s : String) : "ro" ≠ "fsname=" ++ s := by
  intro h
  have hd := congrArg String.data h
  simp only [String.data_append] at hd
  simp only [List.cons_append, List.nil_append] at hd
  injection hd with h1 _
  exact absurd h1 (by decide)

lemma fd_ne_user (v s : String) : "fd=" ++ v ≠ "user_id=" ++ s := by
  intro h
  have hd := congrArg String.data h
  simp only [String.data_append] at hd
  simp only [List.cons_append, List.nil_append] at hd
  injection hd with h1 _
  exact absurd h1 (by decide)

lemma fd_ne_group (v s : String) : "fd=" ++ v ≠ "group_id=" ++ s := by
  intro h
  have hd := congrArg String.data h
  simp only [String.data_append] at hd
  simp only [List.cons_append, List.nil_append] at hd
  injection hd with h1 _
  exact absurd h1 (by decide)

lemma fd_ne_rootmode (v s : String) : "fd=" ++ v ≠ "rootmode=" ++ s := by
  intro h
  have hd := congrArg String.data h
  simp only [String.data_append] at hd
  simp only [List.cons_append, List.nil_append] at hd
  injection hd with h1 _
  exact absurd h1 (by decide)

lemma fd_ne_fsname (v s : String) : "fd=" ++ v ≠ "fsname=" ++ s := by
  intro h
  have hd := congrArg String.data h
  simp only [String.data_append] at hd
  simp only [List.cons_append, List.nil_append] at hd
  injection hd with _ h2
  injection h2 with h3 _
  exact absurd h3 (by decide)

lemma fd_ne_allow_root (v : String) : "fd=" ++ v ≠ "allow_root" := by
  intro h
  have hd := congrArg String.data h
  simp only [String.data_append] at hd
  simp only [List.cons_append, List.nil_append] at hd
  injection hd with h1 _
  exact absurd h1 (by decide)

lemma fd_ne_allow_other (v : String) : "fd=" ++ v ≠ "allow_other" := by
  intro h
  have hd := congrArg String.data h
  simp only [String.data_append] at hd
  simp only [List.cons_append, List.nil_append] at hd
  injection hd with h1 _
  exact absurd h1 (by decide)

lemma fd_ne_ro (v : String) : "fd=" ++ v ≠ "ro" := by
  intro h
  have hd := congrArg String.data h
  simp only [String.data_append] at hd
  simp only [List.cons_append, List.nil_append] at hd
  injection hd with h1 _
  exact absurd h1 (by decide)

lemma fd_ne_default_permissions (v : String) : "fd=" ++ v ≠ "default_permissions" := by
  intro h
  have hd := congrArg String.data h
  simp only [String.data_append] at hd
  simp only [List.cons_append, List.nil_append] at hd
  injection hd with h1 _
  exact absurd h1 (by decide)

/-! ### Comma-freeness of the derived option segments -/

lemma comma_notin_append {a b : String} (ha : ',' ∉ a.data) (hb : ',' ∉ b.data) :
    ',' ∉ (a ++ b).data := by
  simp only [String.data_append, List.mem_append]
  rintro (h | h)
  · exact ha h
  · exact hb h

lemma specDescriptorOpts_comma_free (o : MountOptions) (env : FuseEnv) (fd : Int) :
    ∀ p ∈ specDescriptorOpts o env fd, ',' ∉ p.data := by
  intro p hp
  unfold specDescriptorOpts at hp
  simp only [List.mem_append, List.mem_cons, List.not_mem_nil, or_false,
    List.mem_ite_nil_right, List.mem_singleton] at hp
  rcases hp with ((((rfl | rfl | rfl | rfl) | ⟨_, rfl⟩) | ⟨_, rfl⟩) | ⟨_, rfl⟩) | ⟨_, rfl⟩
  · exact comma_notin_append (by decide) (intToString_ne_comma fd)
  · exact comma_notin_append (by decide) (natToString_ne_comma _)
  · exact comma_notin_append (by decide) (natToString_ne_comma _)
  · exact comma_notin_append (by decide) (natToString_ne_comma _)
  · decide
  · decide
  · decide
  · decide

lemma specUnprivOpts_comma_free (o : MountOptions) (env : FuseEnv)
    (hf : ',' ∉ (o.fs_name.getD "fuse").data) :
    ∀ p ∈ specUnprivOpts o env, ',' ∉ p.data := by
  intro p hp
  unfold specUnprivOpts at hp
  simp only [List.mem_append, List.mem_cons, List.not_mem_nil, or_false,
    List.mem_ite_nil_right, List.mem_singleton] at hp
  rcases hp with ((((rfl | rfl | rfl | rfl) | ⟨_, rfl⟩) | ⟨_, rfl⟩) | ⟨_, rfl⟩) | ⟨_, rfl⟩
  · exact comma_notin_append (by decide) (natToString_ne_comma _)
  · exact comma_notin_append (by decide) (natToString_ne_comma _)
  · exact comma_notin_append (by decide) (natToString_ne_comma _)
  · exact comma_notin_append (by decide) hf
  · decide
  · decide
  · decide
  · decide

lemma specDescriptorOpts_ne_nil (o : MountOptions) (env : FuseEnv) (fd : Int) :
    specDescriptorOpts o env fd ≠ [] := by
  unfold specDescriptorOpts
  simp

lemma specUnprivOpts_ne_nil (o : MountOptions) (env : FuseEnv) :
    specUnprivOpts o env ≠ [] := by
  unfold specUnprivOpts
  simp

/-! ### Token decomposition of the rendered strings -/

lemma commaSplit_build_none (o : MountOptions) (env : FuseEnv) (fd : Int)
    (h : o.custom_options = none) :
    commaSplit (o.build env fd) = specDescriptorOpts o env fd := by
  rw [build_eq_spec]
  unfold specDescriptorRender
  rw [h]
  rw [show (String.intercalate "," (specDescriptorOpts o env fd) ++ "")
      = String.intercalate "," (specDescriptorOpts o env fd) from String.append_empty _]
  exact commaSplit_intercalate _ (specDescriptorOpts_ne_nil o env fd)
    (specDescriptorOpts_comma_free o env fd)

lemma commaSplit_unpriv_none (o : MountOptions) (env : FuseEnv)
    (hf : ',' ∉ (o.fs_name.getD "fuse").data) (h : o.custom_options = none) :
    commaSplit (o.build_with_unprivileged env) = specUnprivOpts o env := by
  rw [unpriv_eq_spec]
  unfold specUnprivRender
  rw [h]
  rw [show (String.intercalate "," (specUnprivOpts o env) ++ "")
      = String.intercalate "," (specUnprivOpts o env) from String.append_empty _]
  exact commaSplit_intercalate _ (specUnprivOpts_ne_nil o env)
    (specUnprivOpts_comma_free o env hf)

lemma commaSplit_unpriv_some (o : MountOptions) (env : FuseEnv) (c : String)
    (hf : ',' ∉ (o.fs_name.getD "fuse").data) (h : o.custom_options = some c) :
    commaSplit (o.build_with_unprivileged env) = specUnprivOpts o env ++ commaSplit c := by
  rw [unpriv_eq_spec]
  unfold specUnprivRender
  rw [h]
  rw [show (String.intercalate "," (specUnprivOpts o env) ++ ("," ++ c))
      = String.intercalate "," (specUnprivOpts o env) ++ "," ++ c
      from (String.append_assoc _ _ _).symm]
  exact commaSplit_intercalate_append _ _ (specUnprivOpts_ne_nil o env)
    (specUnprivOpts_comma_free o env hf)

/-- The `ro` token appears among the descriptor-render's derived segments
exactly when `read_only` is explicitly `Some(true)`. -/
lemma ro_mem_specDescriptorOpts (o : MountOptions) (env : FuseEnv) (fd : Int) :
    "ro" ∈ specDescriptorOpts o env fd ↔ o.read_only = some true := by
  unfold specDescriptorOpts
  simp only [List.mem_append, List.mem_cons, List.not_mem_nil, or_false,
    List.mem_ite_nil_right, List.mem_singleton]
  constructor
  · rintro (((((h | h | h | h) | ⟨_, h⟩) | ⟨_, h⟩) | ⟨hr, _⟩) | ⟨_, h⟩)
    · exact absurd h (ro_ne_fd _)
    · exact absurd h (ro_ne_user _)
    · exact absurd h (ro_ne_group _)
    · exact absurd h (ro_ne_rootmode _)
    · exact absurd h (by decide)
    · exact absurd h (by decide)
    · exact hr
    · exact absurd h (by decide)
  · intro h
    exact Or.inl (Or.inr ⟨h, trivial⟩)

/-- The mandatory `fsname=` segment of the unprivileged render. -/
lemma fsname_mem_specUnprivOpts (o : MountOptions) (env : FuseEnv) :
    ("fsname=" ++ o.fs_name.getD "fuse") ∈ specUnprivOpts o env := by
  unfold specUnprivOpts
  simp

/-- No segment of the unprivileged render's derived options is an `fd=`
entry. -/
lemma fd_not_mem_specUnprivOpts (o : MountOptions) (env : FuseEnv) (v : String) :
    ("fd=" ++ v) ∉ specUnprivOpts o env := by
  unfold specUnprivOpts
  simp only [List.mem_append, List.mem_cons, List.not_mem_nil, or_false,
    List.mem_ite_nil_right, List.mem_singleton]
  rintro (((((h | h | h | h) | ⟨_, h⟩) | ⟨_, h⟩) | ⟨_, h⟩) | ⟨_, h⟩)
  · exact absurd h (fd_ne_user _ _)
  · exact absurd h (fd_ne_group _ _)
  · exact absurd h (fd_ne_rootmode _ _)
  · exact absurd h (fd_ne_fsname _ _)
  · exact absurd h (fd_ne_allow_root _)
  · exact absurd h (fd_ne_allow_other _)
  · exact absurd h (fd_ne_ro _)
  · exact absurd h (fd_ne_default_permissions _)

/-! ### Further helper lemmas for the claims -/

lemma build_custom_suffix (o : MountOptions) (t : String) (env : FuseEnv) (fd : Int) :
    ({o with custom_options := some t} : MountOptions).build env fd
      = ({o with custom_options := none} : MountOptions).build env fd ++ "," ++ t := rfl

lemma unpriv_custom_suffix (o : MountOptions) (t : String) (env : FuseEnv) :
    ({o with custom_options := some t} : MountOptions).build_with_unprivileged env
      = ({o with custom_options := none} : MountOptions).build_with_unprivileged env
        ++ "," ++ t := rfl

lemma build_env_irrel (o : MountOptions) (e1 e2 : FuseEnv) (fd : Int)
    (hu : o.uid.isSome = true) (hg : o.gid.isSome = true) :
    o.build e1 fd = o.build e2 fd := by
  obtain ⟨u, hu'⟩ := Option.isSome_iff_exists.mp hu
  obtain ⟨g, hg'⟩ := Option.isSome_iff_exists.mp hg
  unfold MountOptions.build MountOptions.linuxOpts
  rw [hu', hg']
  simp only [Option.getD_some]

lemma unpriv_env_irrel (o : MountOptions) (e1 e2 : FuseEnv)
    (hu : o.uid.isSome = true) (hg : o.gid.isSome = true) :
    o.build_with_unprivileged e1 = o.build_with_unprivileged e2 := by
  obtain ⟨u, hu'⟩ := Option.isSome_iff_exists.mp hu
  obtain ⟨g, hg'⟩ := Option.isSome_iff_exists.mp hg
  unfold MountOptions.build_with_unprivileged MountOptions.unprivOpts
  rw [hu', hg']
  simp only [Option.getD_some]

lemma new_build (env : FuseEnv) (fd : Int) :
    MountOptions.new.build env fd
      = "fd=" ++ toString fd ++ ",user_id=" ++ toString env.getuid
        ++ ",group_id=" ++ toString env.getgid ++ ",rootmode=40000" := by
  have h1 : MountOptions.new.build env fd
      = String.intercalate ","
          ["fd=" ++ toString fd, "user_id=" ++ toString env.getuid,
           "group_id=" ++ toString env.getgid, "rootmode=" ++ toString (40000 : Nat)] := rfl
  rw [h1]
  apply String.ext
  rw [show (toString (40000 : Nat)) = "40000" from rfl]
  simp [String.intercalate, String.intercalate.go, String.append_assoc]

/-! ## Claim theorems -/

/-- C1: for every `MountOptions` and descriptor, the descriptor-based
render produces the comma-delimited segments in exactly the fixed order
`fd`, `user_id`, `group_id`, `rootmode`, then `allow_root`, `allow_other`,
`ro`, `default_permissions` each only under its condition, then the custom
text preceded by a comma only if set (`specDescriptorRender` states that
order in the spec's words); and the concrete scenario
`uid(1000).gid(1000).allow_other(true).read_only(true)` rendered with
descriptor 7 yields exactly
`"fd=7,user_id=1000,group_id=1000,rootmode=40000,allow_other,ro"`. -/
theorem C1_descriptor_field_order :
    (∀ (o : MountOptions) (env : FuseEnv) (fd : Int),
      o.build env fd = specDescriptorRender o env fd)
    ∧ ∀ env : FuseEnv,
        ((((MountOptions.new.set_uid 1000).set_gid 1000).set_allow_other
            true).set_read_only true).build env 7
          = "fd=7,user_id=1000,group_id=1000,rootmode=40000,allow_other,ro" := by
  refine ⟨build_eq_spec, fun env => ?_⟩
  rw [build_env_irrel
    ((((MountOptions.new.set_uid 1000).set_gid 1000).set_allow_other true).set_read_only true)
    env ⟨0, 0⟩ 7 rfl rfl]
  decide

/-- C2: a default-initialized `MountOptions` renders (descriptor-based,
any descriptor, any process uid/gid) to exactly
`fd=<d>,user_id=<uid>,group_id=<gid>,rootmode=40000` — no flag tokens, no
trailing comma. -/
theorem C2_default_render (env : FuseEnv) (fd : Int) :
    MountOptions.new.build env fd
      = "fd=" ++ toString fd ++ ",user_id=" ++ toString env.getuid
        ++ ",group_id=" ++ toString env.getgid ++ ",rootmode=40000" :=
  new_build env fd

/-- C2 witness: instance at descriptor 7 and uid/gid 1000. -/
theorem C2_default_render_witness :
    MountOptions.new.build ⟨1000, 1000⟩ 7
      = "fd=" ++ toString (7 : Int) ++ ",user_id=" ++ toString (1000 : Nat)
        ++ ",group_id=" ++ toString (1000 : Nat) ++ ",rootmode=40000" :=
  C2_default_render ⟨1000, 1000⟩ 7

/-- C3 counterexample: the claim "the rendered string contains the token
`ro` iff `read_only` is `Some(true)`" fails as stated: with
`custom_options = "ro"` (and `read_only` unset) the verbatim custom text
contributes a `ro` comma-segment to the rendered string. -/
theorem C3_counterexample :
    "ro" ∈ commaSplit ((MountOptions.new.set_custom_options "ro").build ⟨0, 0⟩ 1)
    ∧ ¬(MountOptions.new.set_custom_options "ro").read_only = some true := by
  constructor
  · decide
  · decide

/-- C3 (amended): provided `custom_options` is unset, the rendered
descriptor-based string contains the comma-segment `ro` iff `read_only`
was explicitly set to `true`; unset (`None`) and explicit `false` both
omit it. -/
theorem C3_ro_token_iff_read_only (o : MountOptions) (env : FuseEnv) (fd : Int)
    (h : o.custom_options = none) :
    "ro" ∈ commaSplit (o.build env fd) ↔ o.read_only = some true := by
  rw [commaSplit_build_none o env fd h]
  exact ro_mem_specDescriptorOpts o env fd

/-- C3 witness: `read_only(false)` has no custom options, and the
equivalence holds there (no `ro` token, `read_only ≠ Some(true)`). -/
theorem C3_ro_token_iff_read_only_witness :
    (MountOptions.new.set_read_only false).custom_options = none
    ∧ ("ro" ∈ commaSplit ((MountOptions.new.set_read_only false).build ⟨0, 0⟩ 1)
        ↔ (MountOptions.new.set_read_only false).read_only = some true) :=
  ⟨rfl, C3_ro_token_iff_read_only (MountOptions.new.set_read_only false) ⟨0, 0⟩ 1 rfl⟩

/-- C4: setting `custom_options` to any text `t` makes both the
descriptor-based and the unprivileged render equal the render of the same
options without custom text, followed by exactly `","` and `t` verbatim —
the custom text is appended last, whatever state the other fields are in
(hence regardless of the order the setters were called in). -/
theorem C4_custom_options_appended_verbatim :
    (∀ (o : MountOptions) (t : String) (env : FuseEnv) (fd : Int),
      (o.set_custom_options t).build env fd
        = ({o with custom_options := none} : MountOptions).build env fd ++ "," ++ t)
    ∧ ∀ (o : MountOptions) (t : String) (env : FuseEnv),
        (o.set_custom_options t).build_with_unprivileged env
          = ({o with custom_options := none} : MountOptions).build_with_unprivileged env
            ++ "," ++ t :=
  ⟨fun o t env fd => build_custom_suffix o t env fd,
   fun o t env => unpriv_custom_suffix o t env⟩

/-- C5: the named-option (BSD-style) render produces exactly the entries
`fstype=fusefs`, `from=/dev/fuse`, then `allow_other` (bare) only if set,
then `default_permissions` (bare) only if set, then the
`subtype=<fs_name>` key/value entry only if `fs_name` is set
(`specNamedEntries` states that enumeration); a default-initialized
aggregator yields exactly the two mandatory entries. -/
theorem C5_named_option_entries :
    (∀ o : MountOptions, o.build_freebsd = specNamedEntries o)
    ∧ MountOptions.new.build_freebsd
        = [("fstype", some "fusefs"), ("from", some "/dev/fuse")] :=
  ⟨freebsd_eq_spec, by decide⟩

/-- C6 counterexample: the claim "the unprivileged render produces a
string that contains no `fd=` entry" fails as stated: with
`custom_options = "fd=3"` the verbatim custom text contributes an `fd=`
comma-segment to the rendered string. -/
theorem C6_counterexample :
    ("fd=" ++ "3") ∈ commaSplit
      ((MountOptions.new.set_custom_options "fd=3").build_with_unprivileged ⟨0, 0⟩) := by
  decide

/-- C6 (amended): for every `MountOptions` whose `fs_name` (or its default
`"fuse"`) contains no comma, the unprivileged render follows exactly the
spec's field order (`specUnprivRender`: `user_id`, `group_id`, `rootmode`,
`fsname`, conditional flags, trailing custom text), its comma-segments
always include `fsname=<fs_name or "fuse">`, and — provided
`custom_options` is unset — no comma-segment is an `fd=` entry. -/
theorem C6_unpriv_render (o : MountOptions) (env : FuseEnv)
    (hf : ',' ∉ (o.fs_name.getD "fuse").data) :
    o.build_with_unprivileged env = specUnprivRender o env
    ∧ ("fsname=" ++ o.fs_name.getD "fuse") ∈ commaSplit (o.build_with_unprivileged env)
    ∧ (o.custom_options = none →
        ∀ v : String, ("fd=" ++ v) ∉ commaSplit (o.build_with_unprivileged env)) := by
  refine ⟨unpriv_eq_spec o env, ?_, ?_⟩
  · cases hc : o.custom_options with
    | none =>
      rw [commaSplit_unpriv_none o env hf hc]
      exact fsname_mem_specUnprivOpts o env
    | some c =>
      rw [commaSplit_unpriv_some o env c hf hc]
      exact List.mem_append_left _ (fsname_mem_specUnprivOpts o env)
  · intro hc v
    rw [commaSplit_unpriv_none o env hf hc]
    exact fd_not_mem_specUnprivOpts o env v

/-- C6 witness: `fs_name("mydata")` (comma-free, no custom options): its
unprivileged render includes the `fsname=mydata` segment and no `fd=`
entry. -/
theorem C6_unpriv_render_witness :
    (',' ∉ ((MountOptions.new.set_fs_name "mydata").fs_name.getD "fuse").data
      ∧ (MountOptions.new.set_fs_name "mydata").custom_options = none)
    ∧ ("fsname=" ++ (MountOptions.new.set_fs_name "mydata").fs_name.getD "fuse")
        ∈ commaSplit ((MountOptions.new.set_fs_name "mydata").build_with_unprivileged ⟨0, 0⟩)
    ∧ ("fd=" ++ "1") ∉ commaSplit
        ((MountOptions.new.set_fs_name "mydata").build_with_unprivileged ⟨0, 0⟩) := by
  refine ⟨⟨by decide, rfl⟩, ?_, ?_⟩
  · exact (C6_unpriv_render (MountOptions.new.set_fs_name "mydata") ⟨0, 0⟩ (by decide)).2.1
  · exact (C6_unpriv_render (MountOptions.new.set_fs_name "mydata") ⟨0, 0⟩ (by decide)).2.2
      rfl "1"

/-- C7: every setter overwrites rather than accumulates — calling the same
setter twice leaves the state (hence every render) identical to calling it
once with the second value, for all sixteen setters; and in particular
`allow_other(true)` then `allow_other(false)` renders identically to never
having called `allow_other`. -/
theorem C7_setters_overwrite :
    (∀ (o : MountOptions) (a b : Nat), (o.set_uid a).set_uid b = o.set_uid b)
    ∧ (∀ (o : MountOptions) (a b : Nat), (o.set_gid a).set_gid b = o.set_gid b)
    ∧ (∀ (o : MountOptions) (a b : String), (o.set_fs_name a).set_fs_name b = o.set_fs_name b)
    ∧ (∀ (o : MountOptions) (a b : Nat), (o.set_rootmode a).set_rootmode b = o.set_rootmode b)
    ∧ (∀ (o : MountOptions) (a b : Bool),
        (o.set_allow_root a).set_allow_root b = o.set_allow_root b)
    ∧ (∀ (o : MountOptions) (a b : Bool),
        (o.set_allow_other a).set_allow_other b = o.set_allow_other b)
    ∧ (∀ (o : MountOptions) (a b : Bool),
        (o.set_read_only a).set_read_only b = o.set_read_only b)
    ∧ (∀ (o : MountOptions) (a b : Bool), (o.set_nonempty a).set_nonempty b = o.set_nonempty b)
    ∧ (∀ (o : MountOptions) (a b : Bool),
        (o.set_default_permissions a).set_default_permissions b = o.set_default_permissions b)
    ∧ (∀ (o : MountOptions) (a b : Bool),
        (o.set_dont_mask a).set_dont_mask b = o.set_dont_mask b)
    ∧ (∀ (o : MountOptions) (a b : Bool),
        (o.set_no_open_support a).set_no_open_support b = o.set_no_open_support b)
    ∧ (∀ (o : MountOptions) (a b : Bool),
        (o.set_no_open_dir_support a).set_no_open_dir_support b = o.set_no_open_dir_support b)
    ∧ (∀ (o : MountOptions) (a b : Bool),
        (o.set_handle_killpriv a).set_handle_killpriv b = o.set_handle_killpriv b)
    ∧ (∀ (o : MountOptions) (a b : Bool),
        (o.set_write_back a).set_write_back b = o.set_write_back b)
    ∧ (∀ (o : MountOptions) (a b : Bool),
        (o.set_force_readdir_plus a).set_force_readdir_plus b = o.set_force_readdir_plus b)
    ∧ (∀ (o : MountOptions) (a b : String),
        (o.set_custom_options a).set_custom_options b = o.set_custom_options b)
    ∧ ∀ (env : FuseEnv) (fd : Int),
        ((MountOptions.new.set_allow_other true).set_allow_other false).build env fd
          = MountOptions.new.build env fd :=
  by
  repeat' apply And.intro
  all_goals intros
  all_goals rfl

/-- C8: the renders are total functions in the embedding, and their
dependence on the process environment is confined to the uid/gid defaults:
when both `uid` and `gid` are set, the descriptor-based and unprivileged
renders agree across any two environments. -/
theorem C8_renders_env_independent (o : MountOptions) (e1 e2 : FuseEnv) (fd : Int)
    (hu : o.uid.isSome = true) (hg : o.gid.isSome = true) :
    o.build e1 fd = o.build e2 fd
    ∧ o.build_with_unprivileged e1 = o.build_with_unprivileged e2 :=
  ⟨build_env_irrel o e1 e2 fd hu hg, unpriv_env_irrel o e1 e2 hu hg⟩

/-- C8 witness: `uid(1).gid(2)` renders identically under environments
`(3,4)` and `(6,7)`. -/
theorem C8_renders_env_independent_witness :
    ((MountOptions.new.set_uid 1).set_gid 2).uid.isSome = true
    ∧ ((MountOptions.new.set_uid 1).set_gid 2).gid.isSome = true
    ∧ ((MountOptions.new.set_uid 1).set_gid 2).build ⟨3, 4⟩ 5
        = ((MountOptions.new.set_uid 1).set_gid 2).build ⟨6, 7⟩ 5
    ∧ ((MountOptions.new.set_uid 1).set_gid 2).build_with_unprivileged ⟨3, 4⟩
        = ((MountOptions.new.set_uid 1).set_gid 2).build_with_unprivileged ⟨6, 7⟩ := by
  refine ⟨rfl, rfl, ?_, ?_⟩
  · exact (C8_renders_env_independent ((MountOptions.new.set_uid 1).set_gid 2)
      ⟨3, 4⟩ ⟨6, 7⟩ 5 rfl rfl).1
  · exact (C8_renders_env_independent ((MountOptions.new.set_uid 1).set_gid 2)
      ⟨3, 4⟩ ⟨6, 7⟩ 5 rfl rfl).2

/-- C9: rendering neither consumes nor mutates the aggregator: in the
state-passing embedding of the `&self` render methods, each render returns
the receiver unchanged, and rendering the returned state again (same
descriptor, same environment) yields the same result — the aggregator is
reusable after render. -/
theorem C9_render_frame (o : MountOptions) (env : FuseEnv) (fd : Int) :
    (o.buildSt env fd).2 = o
    ∧ (o.build_with_unprivilegedSt env).2 = o
    ∧ o.build_freebsdSt.2 = o
    ∧ ((o.buildSt env fd).2).buildSt env fd = o.buildSt env fd
    ∧ ((o.build_with_unprivilegedSt env).2).build_with_unprivilegedSt env
        = o.build_with_unprivilegedSt env
    ∧ (o.build_freebsdSt.2).build_freebsdSt = o.build_freebsdSt :=
  ⟨rfl, rfl, rfl, rfl, rfl, rfl⟩

/-- C10: setting `custom_options` to the empty string still appends the
literal comma separator in both flat renders, so the result carries a
trailing comma; in particular a default aggregator with
`custom_options("")` renders (descriptor-based) as
`fd=<d>,user_id=<uid>,group_id=<gid>,rootmode=40000,`. -/
theorem C10_empty_custom_trailing_comma :
    (∀ (o : MountOptions) (env : FuseEnv) (fd : Int),
      (o.set_custom_options "").build env fd
        = ({o with custom_options := none} : MountOptions).build env fd ++ ",")
    ∧ (∀ (o : MountOptions) (env : FuseEnv),
      (o.set_custom_options "").build_with_unprivileged env
        = ({o with custom_options := none} : MountOptions).build_with_unprivileged env ++ ",")
    ∧ ∀ (env : FuseEnv) (fd : Int),
        (MountOptions.new.set_custom_options "").build env fd
          = "fd=" ++ toString fd ++ ",user_id=" ++ toString env.getuid
            ++ ",group_id=" ++ toString env.getgid ++ ",rootmode=40000," := by
  refine ⟨fun o env fd => ?_, fun o env => ?_, fun env fd => ?_⟩
  · rw [show (o.set_custom_options "").build env fd
        = ({o with custom_options := some ""} : MountOptions).build env fd from rfl,
      build_custom_suffix, String.append_empty]
  · rw [show (o.set_custom_options "").build_with_unprivileged env
        = ({o with custom_options := some ""} : MountOptions).build_with_unprivileged env
        from rfl,
      unpriv_custom_suffix, String.append_empty]
  · have h1 : (MountOptions.new.set_custom_options "").build env fd
        = MountOptions.new.build env fd ++ "," := by
      rw [show (MountOptions.new.set_custom_options "").build env fd
          = ({MountOptions.new with custom_options := some ""} : MountOptions).build env fd
          from rfl,
        build_custom_suffix, String.append_empty]
      rfl
    rw [h1, new_build]
    apply String.ext
    simp [String.append_assoc]
